import Mathlib

/-!
Shallow embedding of `character_database_streamlit.py` (the Character record
and the CharacterDatabase store).  Timestamps (`datetime.now().isoformat()`)
are modelled as abstract instants of type `Nat`, supplied explicitly as a
`now` argument to every operation that reads the clock; a later instant is a
larger `Nat`.  A Python `dict` keyed by strings is modelled as an
insertion-ordered association list, and the data directory as an association
list from file name to parsed JSON content.
-/

namespace CharacterDB

/-- One character record (the Python `Character` object's fields). -/
structure Character where
  name : String
  char_class : String
  level : Int
  strength : Int
  dexterity : Int
  constitution : Int
  intelligence : Int
  wisdom : Int
  charisma : Int
  created_date : Nat
  modified_date : Nat
  deriving DecidableEq, Repr

/-- Python `Character.__init__`: stores the nine arguments and sets both
timestamps to the current instant `now`. -/
def Character.init (now : Nat) (name char_class : String)
    (level strength dexterity constitution intelligence wisdom charisma : Int) :
    Character :=
  ⟨name, char_class, level, strength, dexterity, constitution, intelligence,
   wisdom, charisma, now, now⟩

/-- The flat JSON mapping produced by `to_dict` / consumed by `from_dict`,
restricted to the eleven keys the program reads and writes.  Each field is
`Option` because `from_dict` tolerates absent keys.  The `class` field models
the external key name `"class"` (internal name `char_class`). -/
structure CharDict where
  name : Option String
  «class» : Option String
  level : Option Int
  strength : Option Int
  dexterity : Option Int
  constitution : Option Int
  intelligence : Option Int
  wisdom : Option Int
  charisma : Option Int
  created_date : Option Nat
  modified_date : Option Nat
  deriving DecidableEq, Repr

/-- The empty JSON mapping `{}`. -/
def CharDict.empty : CharDict :=
  ⟨none, none, none, none, none, none, none, none, none, none, none⟩

/-- Python `Character.to_dict`: every field is present in the output. -/
def Character.to_dict (c : Character) : CharDict :=
  ⟨some c.name, some c.char_class, some c.level, some c.strength,
   some c.dexterity, some c.constitution, some c.intelligence, some c.wisdom,
   some c.charisma, some c.created_date, some c.modified_date⟩

/-- Python `Character.from_dict`: builds a record via `__init__` with
`data.get(key, default)` for each field, then overwrites the timestamps with
`data.get('created_date', now)` / `data.get('modified_date', now)`. -/
def Character.from_dict (now : Nat) (data : CharDict) : Character :=
  let char := Character.init now (data.name.getD "") (data.«class».getD "")
      (data.level.getD 1) (data.strength.getD 10) (data.dexterity.getD 10)
      (data.constitution.getD 10) (data.intelligence.getD 10)
      (data.wisdom.getD 10) (data.charisma.getD 10)
  { char with
    created_date := data.created_date.getD now
    modified_date := data.modified_date.getD now }

/-- Lookup in a Python dict modelled as an association list (first match). -/
def dlookup {α : Type} (k : String) : List (String × α) → Option α
  | [] => none
  | p :: rest => if p.1 = k then some p.2 else dlookup k rest

/-- Python dict assignment `d[k] = v`: update in place if the key is present,
otherwise append at the end (dicts preserve insertion order). -/
def dinsert {α : Type} (k : String) (v : α) : List (String × α) → List (String × α)
  | [] => [(k, v)]
  | p :: rest => if p.1 = k then (k, v) :: rest else p :: dinsert k v rest

/-- Python dict deletion `del d[k]` / file removal: drop every entry at key
`k` (a reachable dict state has at most one). -/
def dremove {α : Type} (k : String) (l : List (String × α)) : List (String × α) :=
  l.filter (fun p => !(p.1 == k))

/-- Number of entries at key `k`. -/
def countKey {α : Type} (k : String) (l : List (String × α)) : Nat :=
  l.countP (fun p => p.1 == k)

/-- Keys of an association list have no duplicate (true of every state a
Python dict can reach). -/
def nodupKeys {α : Type} (l : List (String × α)) : Prop :=
  (l.map Prod.fst).Nodup

/-- Python `str.lower()`, per character (ASCII case folding). -/
def pyLower (s : String) : String :=
  String.mk (s.data.map Char.toLower)

/-- Filename derivation of `save_character` / `delete_character`:
`name.replace(' ', '_') + ".json"`, the single-character replacement taken
per character. -/
def filenameFor (name : String) : String :=
  String.mk (name.data.map (fun ch => if ch = ' ' then '_' else ch)) ++ ".json"

/-- The store: the in-memory mapping `characters` (name to record) and the
data directory `files` (file name to parsed JSON content, in enumeration
order). -/
structure CharacterDatabase where
  characters : List (String × Character)
  files : List (String × CharDict)
  deriving DecidableEq, Repr

/-- A store freshly initialized over an empty data directory. -/
def emptyDB : CharacterDatabase := ⟨[], []⟩

/-- Python `load_all_characters`: clear the mapping, then for each file in
enumeration order deserialize its content and insert it keyed by the record's
`name` field. -/
def CharacterDatabase.load_all_characters (now : Nat) (db : CharacterDatabase) :
    CharacterDatabase :=
  { db with
    characters := db.files.foldl
      (fun acc fd =>
        let char := Character.from_dict now fd.2
        dinsert char.name char acc) [] }

/-- Python `save_character`: set `modified_date` to now, write the serialized
record to the file derived from the name (overwriting), then update the
in-memory mapping at the name. -/
def CharacterDatabase.save_character (now : Nat) (character : Character)
    (db : CharacterDatabase) : CharacterDatabase :=
  let character := { character with modified_date := now }
  let filename := filenameFor character.name
  { characters := dinsert character.name character db.characters
    files := dinsert filename character.to_dict db.files }

/-- Python `delete_character`: unlink the file derived from the name if it
exists, then `del self.characters[name]`.  The returned Bool is `false` when
that deletion raises `KeyError` (no in-memory entry); the returned state is
the store's state at that point — the file removal has already happened. -/
def CharacterDatabase.delete_character (name : String) (db : CharacterDatabase) :
    CharacterDatabase × Bool :=
  let filename := filenameFor name
  let files2 := if (dlookup filename db.files).isSome then dremove filename db.files
    else db.files
  if (dlookup name db.characters).isSome then
    ({ characters := dremove name db.characters, files := files2 }, true)
  else
    ({ db with files := files2 }, false)

/-- Python `get_character`: mapping lookup, `none` is the absent result. -/
def CharacterDatabase.get_character (name : String) (db : CharacterDatabase) :
    Option Character :=
  dlookup name db.characters

/-- The sort key order of `list_characters`: ascending by `name.lower()`. -/
def keyLe (a b : Character) : Prop :=
  (pyLower a.name).data ≤ (pyLower b.name).data

instance : DecidableRel keyLe := fun a b => by unfold keyLe; infer_instance

instance : IsTotal Character keyLe := ⟨fun _ _ => le_total _ _⟩

instance : IsTrans Character keyLe := ⟨fun _ _ _ => le_trans⟩

/-- Python `list_characters`: `sorted(self.characters.values(), key=...)`, a
stable ascending sort of the mapping's values by lower-cased name. -/
def CharacterDatabase.list_characters (db : CharacterDatabase) : List Character :=
  (db.characters.map Prod.snd).insertionSort keyLe

/-! Dictionary lemmas. -/

theorem dlookup_dinsert_self {α : Type} (k : String) (v : α) (l : List (String × α)) :
    dlookup k (dinsert k v l) = some v := by
  induction l with
  | nil => simp [dinsert, dlookup]
  | cons p rest ih =>
    by_cases h : p.1 = k
    · simp [dinsert, h, dlookup]
    · simp [dinsert, h, dlookup, ih]

theorem dlookup_dinsert_ne {α : Type} {k' k : String} (h : k' ≠ k) (v : α)
    (l : List (String × α)) : dlookup k (dinsert k' v l) = dlookup k l := by
  induction l with
  | nil => simp [dinsert, dlookup, h]
  | cons p rest ih =>
    obtain ⟨k₀, v₀⟩ := p
    by_cases hp : k₀ = k'
    · subst hp
      simp [dinsert, dlookup, h]
    · simp only [dinsert, hp, if_neg, not_false_iff]
      by_cases hk : k₀ = k
      · simp [dlookup, hk]
      · simp [dlookup, hk, ih]

theorem dlookup_dremove_self {α : Type} (k : String) (l : List (String × α)) :
    dlookup k (dremove k l) = none := by
  induction l with
  | nil => simp [dremove, dlookup]
  | cons p rest ih =>
    by_cases h : p.1 = k
    · simpa [dremove, h] using ih
    · simpa [dremove, h, dlookup] using ih

theorem mem_keys_dinsert {α : Type} {a k : String} {v : α} {l : List (String × α)} :
    a ∈ (dinsert k v l).map Prod.fst ↔ a = k ∨ a ∈ l.map Prod.fst := by
  induction l with
  | nil => simp [dinsert]
  | cons p rest ih =>
    obtain ⟨k₀, v₀⟩ := p
    by_cases h : k₀ = k
    · subst h
      simp [dinsert]
    · simp only [dinsert, h, if_neg, not_false_iff, List.map_cons, List.mem_cons, ih]
      tauto

theorem nodupKeys_dinsert {α : Type} {k : String} {v : α} {l : List (String × α)}
    (h : nodupKeys l) : nodupKeys (dinsert k v l) := by
  induction l with
  | nil => simp [nodupKeys, dinsert]
  | cons p rest ih =>
    simp only [nodupKeys, List.map_cons, List.nodup_cons] at h
    by_cases hp : p.1 = k
    · simp only [nodupKeys, dinsert, hp, if_pos, List.map_cons, List.nodup_cons]
      exact ⟨hp ▸ h.1, h.2⟩
    · simp only [nodupKeys, dinsert, hp, if_neg, not_false_iff, List.map_cons,
        List.nodup_cons]
      refine ⟨fun hmem => ?_, ih h.2⟩
      rcases mem_keys_dinsert.mp hmem with h1 | h1
      · exact hp h1
      · exact h.1 h1

theorem countKey_eq_zero_of_not_mem {α : Type} {k : String} {l : List (String × α)}
    (h : k ∉ l.map Prod.fst) : countKey k l = 0 := by
  induction l with
  | nil => simp [countKey]
  | cons p rest ih =>
    simp only [List.map_cons, List.mem_cons] at h
    push_neg at h
    have hp : (p.1 == k) = false := by
      simp only [beq_eq_false_iff_ne]
      exact fun hc => h.1 hc.symm
    simp only [countKey, List.countP_cons, hp, Bool.false_eq_true, if_neg,
      not_false_iff, Nat.add_zero]
    exact ih h.2

theorem countKey_eq_one {α : Type} {k : String} {l : List (String × α)}
    (hn : nodupKeys l) (hs : (dlookup k l).isSome) : countKey k l = 1 := by
  induction l with
  | nil => simp [dlookup] at hs
  | cons p rest ih =>
    simp only [nodupKeys, List.map_cons, List.nodup_cons] at hn
    by_cases h : p.1 = k
    · have h0 : countKey k rest = 0 := countKey_eq_zero_of_not_mem (by rw [← h]; exact hn.1)
      unfold countKey at h0 ⊢
      simp [List.countP_cons, h, h0]
    · have hs' : (dlookup k rest).isSome := by
        simpa [dlookup, h] using hs
      have := ih hn.2 hs'
      simpa [countKey, List.countP_cons, h] using this

theorem length_dinsert_of_mem {α : Type} {k : String} (v : α)
    {l : List (String × α)} (h : (dlookup k l).isSome = true) :
    (dinsert k v l).length = l.length := by
  induction l with
  | nil => simp [dlookup] at h
  | cons p rest ih =>
    by_cases hp : p.1 = k
    · simp [dinsert, hp]
    · have h' : (dlookup k rest).isSome = true := by simpa [dlookup, hp] using h
      simp [dinsert, hp, ih h']

theorem nodupKeys_load_foldl (now : Nat) (files : List (String × CharDict))
    (acc : List (String × Character)) (hacc : nodupKeys acc) :
    nodupKeys (files.foldl
      (fun acc fd =>
        let char := Character.from_dict now fd.2
        dinsert char.name char acc) acc) := by
  induction files generalizing acc with
  | nil => exact hacc
  | cons fd rest ih =>
    exact ih _ (nodupKeys_dinsert hacc)

/-- Round trip of serialization as a reusable lemma: `from_dict` after
`to_dict` restores every field, the timestamps verbatim. -/
theorem from_dict_to_dict (now : Nat) (c : Character) :
    Character.from_dict now c.to_dict = c := by
  cases c
  rfl

/-- C1: for every Character value `c` (whose serialized form carries both
timestamp fields), `from_dict (to_dict c)` yields a record equal to `c` in
every field — name, char_class, level, the six ability scores, created_date
and modified_date — with the timestamps preserved verbatim and not replaced
by the current instant `now`. -/
theorem serialize_round_trip (now : Nat) (c : Character) :
    Character.from_dict now c.to_dict = c :=
  from_dict_to_dict now c

/-- C2: deserializing the empty mapping yields empty name and class, level 1,
all six ability scores 10, and both timestamps equal to the invocation
instant (hence no earlier than it); more generally deserialization never
fails on a mapping with missing keys — each absent key is replaced by its
default. -/
theorem from_dict_defaults (now : Nat) (d : CharDict) :
    Character.from_dict now CharDict.empty =
      ⟨"", "", 1, 10, 10, 10, 10, 10, 10, now, now⟩ ∧
    now ≤ (Character.from_dict now CharDict.empty).created_date ∧
    now ≤ (Character.from_dict now CharDict.empty).modified_date ∧
    (d.name = none → (Character.from_dict now d).name = "") ∧
    (d.«class» = none → (Character.from_dict now d).char_class = "") ∧
    (d.level = none → (Character.from_dict now d).level = 1) ∧
    (d.strength = none → (Character.from_dict now d).strength = 10) ∧
    (d.dexterity = none → (Character.from_dict now d).dexterity = 10) ∧
    (d.constitution = none → (Character.from_dict now d).constitution = 10) ∧
    (d.intelligence = none → (Character.from_dict now d).intelligence = 10) ∧
    (d.wisdom = none → (Character.from_dict now d).wisdom = 10) ∧
    (d.charisma = none → (Character.from_dict now d).charisma = 10) ∧
    (d.created_date = none → (Character.from_dict now d).created_date = now) ∧
    (d.modified_date = none → (Character.from_dict now d).modified_date = now) := by
  refine ⟨rfl, le_refl now, le_refl now, ?_, ?_, ?_, ?_, ?_, ?_, ?_, ?_, ?_, ?_, ?_⟩
  all_goals intro h
  all_goals simp [Character.from_dict, Character.init, h]

/-- Witness for C2 at `now = 5` and the empty mapping. -/
theorem from_dict_defaults_witness :
    Character.from_dict 5 CharDict.empty =
      ⟨"", "", 1, 10, 10, 10, 10, 10, 10, 5, 5⟩ ∧
    (Character.from_dict 5 CharDict.empty).name = "" ∧
    (Character.from_dict 5 CharDict.empty).created_date = 5 := by
  obtain ⟨h1, _, _, h4, _, _, _, _, _, _, _, _, h13, _⟩ :=
    from_dict_defaults 5 CharDict.empty
  exact ⟨h1, h4 rfl, h13 rfl⟩

/-- C5: `list_characters` returns exactly the records of the in-memory
mapping (a permutation of its values), sorted ascending by lower-cased name;
the store holding "zed", "Anna", "bob" saved in that order lists them as
"Anna", "bob", "zed". -/
theorem list_characters_sorted (db : CharacterDatabase) :
    (db.list_characters).Perm (db.characters.map Prod.snd) ∧
    List.Sorted keyLe db.list_characters ∧
    ((((emptyDB.save_character 0
          (Character.init 0 "zed" "Rogue" 1 10 10 10 10 10 10)).save_character 1
          (Character.init 1 "Anna" "Bard" 2 10 10 10 10 10 10)).save_character 2
          (Character.init 2 "bob" "Monk" 3 10 10 10 10 10 10)).list_characters.map
        Character.name = ["Anna", "bob", "zed"]) :=
  ⟨List.perm_insertionSort keyLe _, List.sorted_insertionSort keyLe _, by decide⟩

/-- C10: the filename derivation is not injective — the distinct names
"a b" and "a_b" share one file; saving characters of both names yields two
in-memory entries backed by a single file, and after a reload from disk only
the later character survives. -/
theorem filename_collision_breaks_correspondence :
    filenameFor "a b" = filenameFor "a_b" ∧
    "a b" ≠ "a_b" ∧
    ((emptyDB.save_character 0
        (Character.init 0 "a b" "Rogue" 1 10 10 10 10 10 10)).save_character 1
        (Character.init 1 "a_b" "Monk" 2 11 10 10 10 10 10)).characters.length = 2 ∧
    ((emptyDB.save_character 0
        (Character.init 0 "a b" "Rogue" 1 10 10 10 10 10 10)).save_character 1
        (Character.init 1 "a_b" "Monk" 2 11 10 10 10 10 10)).files.length = 1 ∧
    (((emptyDB.save_character 0
        (Character.init 0 "a b" "Rogue" 1 10 10 10 10 10 10)).save_character 1
        (Character.init 1 "a_b" "Monk" 2 11 10 10 10 10 10)).load_all_characters
        2).characters.length = 1 ∧
    (((emptyDB.save_character 0
        (Character.init 0 "a b" "Rogue" 1 10 10 10 10 10 10)).save_character 1
        (Character.init 1 "a_b" "Monk" 2 11 10 10 10 10 10)).load_all_characters
        2).get_character "a b" = none := by
  decide

/-- C4: after saving a character and deleting its name, `get` returns the
absent result, no file for that name remains, and a second delete of the same
name fails with the not-found (`KeyError`) outcome; generally, deleting any
name with no in-memory entry fails with that outcome. -/
theorem delete_removes_both_views (db db' : CharacterDatabase) (c : Character)
    (now : Nat) (n : String) (h : db'.get_character n = none) :
    ((db.save_character now c).delete_character c.name).2 = true ∧
    ((db.save_character now c).delete_character c.name).1.get_character c.name
      = none ∧
    dlookup (filenameFor c.name)
      ((db.save_character now c).delete_character c.name).1.files = none ∧
    (((db.save_character now c).delete_character c.name).1.delete_character
      c.name).2 = false ∧
    (db'.delete_character n).2 = false := by
  unfold CharacterDatabase.get_character at h
  refine ⟨?_, ?_, ?_, ?_, ?_⟩
  · simp [CharacterDatabase.delete_character, CharacterDatabase.save_character,
      dlookup_dinsert_self]
  · simp [CharacterDatabase.delete_character, CharacterDatabase.save_character,
      CharacterDatabase.get_character, dlookup_dinsert_self, dlookup_dremove_self]
  · simp [CharacterDatabase.delete_character, CharacterDatabase.save_character,
      dlookup_dinsert_self, dlookup_dremove_self]
  · simp [CharacterDatabase.delete_character, CharacterDatabase.save_character,
      dlookup_dinsert_self, dlookup_dremove_self]
  · simp [CharacterDatabase.delete_character, h]

/-- Witness for C4: a store holding only "Bob", then deleted; "Ann" was never
stored. -/
theorem delete_removes_both_views_witness :
    emptyDB.get_character "Ann" = none ∧
    ((emptyDB.save_character 0
        (Character.init 0 "Bob" "Monk" 1 10 10 10 10 10 10)).delete_character
        (Character.init 0 "Bob" "Monk" 1 10 10 10 10 10 10).name).2 = true ∧
    (emptyDB.delete_character "Ann").2 = false :=
  ⟨by decide,
   (delete_removes_both_views emptyDB emptyDB
      (Character.init 0 "Bob" "Monk" 1 10 10 10 10 10 10) 0 "Ann" (by decide)).1,
   (delete_removes_both_views emptyDB emptyDB
      (Character.init 0 "Bob" "Monk" 1 10 10 10 10 10 10) 0 "Ann"
      (by decide)).2.2.2.2⟩

/-- C8: saving a character under a new name after a prior save under a
different name leaves the old in-memory entry and the old file in place; both
the old and the new entry/file exist after the second save. -/
theorem save_rename_gap (db : CharacterDatabase) (c1 c2 : Character)
    (t1 t2 : Nat) (h : c1.name ≠ c2.name) :
    ((db.save_character t1 c1).save_character t2 c2).get_character c1.name
      = some { c1 with modified_date := t1 } ∧
    ((db.save_character t1 c1).save_character t2 c2).get_character c2.name
      = some { c2 with modified_date := t2 } ∧
    (dlookup (filenameFor c1.name)
      ((db.save_character t1 c1).save_character t2 c2).files).isSome = true ∧
    dlookup (filenameFor c2.name)
      ((db.save_character t1 c1).save_character t2 c2).files
      = some (Character.to_dict { c2 with modified_date := t2 }) := by
  refine ⟨?_, ?_, ?_, ?_⟩
  · simp only [CharacterDatabase.save_character, CharacterDatabase.get_character]
    rw [dlookup_dinsert_ne (by simpa using Ne.symm h)]
    simp [dlookup_dinsert_self]
  · simp [CharacterDatabase.save_character, CharacterDatabase.get_character,
      dlookup_dinsert_self]
  · by_cases hf : filenameFor c2.name = filenameFor c1.name
    · simp only [CharacterDatabase.save_character]
      rw [← hf]
      simp [dlookup_dinsert_self]
    · simp only [CharacterDatabase.save_character]
      rw [dlookup_dinsert_ne (by simpa using hf)]
      simp [dlookup_dinsert_self]
  · simp [CharacterDatabase.save_character, dlookup_dinsert_self]

/-- Witness for C8: "Aria" saved, then the record saved again as "Ariana". -/
theorem save_rename_gap_witness :
    ((emptyDB.save_character 0
        (Character.init 0 "Aria" "Bard" 1 10 10 10 10 10 10)).save_character 1
        (Character.init 1 "Ariana" "Bard" 1 10 10 10 10 10 10)).get_character
        (Character.init 0 "Aria" "Bard" 1 10 10 10 10 10 10).name
      = some { Character.init 0 "Aria" "Bard" 1 10 10 10 10 10 10 with
               modified_date := 0 } :=
  (save_rename_gap emptyDB (Character.init 0 "Aria" "Bard" 1 10 10 10 10 10 10)
    (Character.init 1 "Ariana" "Bard" 1 10 10 10 10 10 10) 0 1 (by decide)).1

/-- C9: delete is not atomic on its failure path — with no in-memory entry
for the name but a file at the derived filename, delete removes that file
from disk and then fails with the not-found outcome, leaving the mapping
unchanged but the disk state altered. -/
theorem delete_not_atomic (db : CharacterDatabase) (n : String)
    (h1 : db.get_character n = none)
    (h2 : (dlookup (filenameFor n) db.files).isSome = true) :
    (db.delete_character n).2 = false ∧
    dlookup (filenameFor n) (db.delete_character n).1.files = none ∧
    (db.delete_character n).1.characters = db.characters := by
  unfold CharacterDatabase.get_character at h1
  unfold CharacterDatabase.delete_character
  simp [h1, h2, dlookup_dremove_self]

/-- Witness for C9: a directory holding `Gone.json` with no in-memory entry
for "Gone". -/
theorem delete_not_atomic_witness :
    ((⟨[], [("Gone.json", CharDict.empty)]⟩ :
        CharacterDatabase).delete_character "Gone").2 = false ∧
    dlookup (filenameFor "Gone")
      ((⟨[], [("Gone.json", CharDict.empty)]⟩ :
        CharacterDatabase).delete_character "Gone").1.files = none := by
  have h := delete_not_atomic ⟨[], [("Gone.json", CharDict.empty)]⟩ "Gone"
    (by decide) (by decide)
  exact ⟨h.1, h.2.1⟩

/-- C3: Save stamps `modified_date` with the save instant, superseding any
caller-supplied value, and leaves `created_date` exactly as supplied; in the
"Aria" scenario — save a fresh record at T0, then at T1 > T0 save a record
derived from it carrying `created_date = T0` forward under the same name,
then reload from disk at T2 — the reloaded record has `created_date = T0` and
`modified_date = T1 > T0`. -/
theorem save_stamps_modified_keeps_created
    (db : CharacterDatabase) (c : Character) (now : Nat)
    (name char_class : String)
    (level strength dexterity constitution intelligence wisdom charisma : Int)
    (c2 : Character) (T0 T1 T2 : Nat)
    (hlt : T0 < T1) (hname : c2.name = name) (hcreated : c2.created_date = T0) :
    (db.save_character now c).get_character c.name
      = some { c with modified_date := now } ∧
    (((emptyDB.save_character T0
        (Character.init T0 name char_class level strength dexterity constitution
          intelligence wisdom charisma)).save_character T1
        c2).load_all_characters T2).get_character name
      = some { c2 with modified_date := T1 } ∧
    ({ c2 with modified_date := T1 }).created_date = T0 ∧
    T0 < ({ c2 with modified_date := T1 }).modified_date := by
  subst hname
  refine ⟨?_, ?_, by simpa using hcreated, by simpa using hlt⟩
  · simp [CharacterDatabase.save_character, CharacterDatabase.get_character,
      dlookup_dinsert_self]
  · simp [CharacterDatabase.save_character, CharacterDatabase.load_all_characters,
      CharacterDatabase.get_character, Character.init, dinsert, dlookup,
      from_dict_to_dict]

/-- Witness for C3: "Aria" saved at 0, a derived record carrying
created_date 0 saved at 1, reloaded at 2. -/
theorem save_stamps_modified_keeps_created_witness :
    (((emptyDB.save_character 0
        (Character.init 0 "Aria" "Cleric" 2 10 10 10 10 10 10)).save_character 1
        { Character.init 1 "Aria" "Cleric" 3 11 10 10 10 10 10 with
          created_date := 0 }).load_all_characters 2).get_character "Aria"
      = some { { Character.init 1 "Aria" "Cleric" 3 11 10 10 10 10 10 with
                 created_date := 0 } with modified_date := 1 } :=
  (save_stamps_modified_keeps_created emptyDB
    (Character.init 3 "X" "" 1 10 10 10 10 10 10) 4 "Aria" "Cleric" 2 10 10 10
    10 10 10
    { Character.init 1 "Aria" "Cleric" 3 11 10 10 10 10 10 with created_date := 0 }
    0 1 2 (by decide) rfl rfl).2.1

/-- C6: Load's result is independent of the prior in-memory mapping (it is
cleared first); each record file is inserted keyed by the `name` field read
from its content, not the filename, so the last-enumerated file with a given
deserialized name determines that name's single entry. -/
theorem load_clears_and_last_wins (now : Nat)
    (cs cs' : List (String × Character)) (files : List (String × CharDict))
    (fn : String) (d : CharDict) (n : String)
    (hname : (Character.from_dict now d).name = n) :
    (CharacterDatabase.load_all_characters now ⟨cs, files⟩).characters
      = (CharacterDatabase.load_all_characters now ⟨cs', files⟩).characters ∧
    (CharacterDatabase.load_all_characters now
        ⟨cs, files ++ [(fn, d)]⟩).get_character n
      = some (Character.from_dict now d) ∧
    countKey n (CharacterDatabase.load_all_characters now
        ⟨cs, files ++ [(fn, d)]⟩).characters = 1 := by
  have hget : (CharacterDatabase.load_all_characters now
      ⟨cs, files ++ [(fn, d)]⟩).get_character n
      = some (Character.from_dict now d) := by
    simp only [CharacterDatabase.load_all_characters,
      CharacterDatabase.get_character, List.foldl_append, List.foldl_cons,
      List.foldl_nil]
    rw [hname]
    exact dlookup_dinsert_self n _ _
  refine ⟨rfl, hget, ?_⟩
  have hnod : nodupKeys (CharacterDatabase.load_all_characters now
      ⟨cs, files ++ [(fn, d)]⟩).characters := by
    simp only [CharacterDatabase.load_all_characters]
    exact nodupKeys_load_foldl now _ [] (by simp [nodupKeys])
  have hsome : (dlookup n (CharacterDatabase.load_all_characters now
      ⟨cs, files ++ [(fn, d)]⟩).characters).isSome = true := by
    unfold CharacterDatabase.get_character at hget
    simp [hget]
  exact countKey_eq_one hnod hsome

/-- Witness for C6: two files whose contents both deserialize to the name
"Dup"; the later file's record is the one surviving entry. -/
theorem load_clears_and_last_wins_witness :
    (CharacterDatabase.load_all_characters 0
        ⟨[("stale", Character.init 9 "Old" "Bard" 1 10 10 10 10 10 10)],
         [("Dup.json",
            (Character.init 1 "Dup" "Bard" 2 10 10 10 10 10 10).to_dict)] ++
           [("other_name.json",
             (Character.init 2 "Dup" "Monk" 3 11 10 10 10 10 10).to_dict)]⟩).get_character
        "Dup"
      = some (Character.from_dict 0
          (Character.init 2 "Dup" "Monk" 3 11 10 10 10 10 10).to_dict) ∧
    countKey "Dup" (CharacterDatabase.load_all_characters 0
        ⟨[("stale", Character.init 9 "Old" "Bard" 1 10 10 10 10 10 10)],
         [("Dup.json",
            (Character.init 1 "Dup" "Bard" 2 10 10 10 10 10 10).to_dict)] ++
           [("other_name.json",
             (Character.init 2 "Dup" "Monk" 3 11 10 10 10 10 10).to_dict)]⟩).characters
      = 1 := by
  have h := load_clears_and_last_wins 0
    [("stale", Character.init 9 "Old" "Bard" 1 10 10 10 10 10 10)] []
    [("Dup.json", (Character.init 1 "Dup" "Bard" 2 10 10 10 10 10 10).to_dict)]
    "other_name.json"
    (Character.init 2 "Dup" "Monk" 3 11 10 10 10 10 10).to_dict "Dup" (by decide)
  exact ⟨h.2.1, h.2.2⟩

/-- C7: saving two Character values with the same name, one after the other,
leaves exactly one in-memory entry and exactly one file for that name, both
holding the fields of the second value. -/
theorem same_name_second_save_overwrites (db : CharacterDatabase)
    (c1 c2 : Character) (t1 t2 : Nat) (hname : c1.name = c2.name)
    (hwfc : nodupKeys db.characters) (hwff : nodupKeys db.files) :
    ((db.save_character t1 c1).save_character t2 c2).get_character c2.name
      = some { c2 with modified_date := t2 } ∧
    dlookup (filenameFor c2.name)
      ((db.save_character t1 c1).save_character t2 c2).files
      = some (Character.to_dict { c2 with modified_date := t2 }) ∧
    countKey c2.name
      ((db.save_character t1 c1).save_character t2 c2).characters = 1 ∧
    countKey (filenameFor c2.name)
      ((db.save_character t1 c1).save_character t2 c2).files = 1 ∧
    ((db.save_character t1 c1).save_character t2 c2).characters.length
      = (db.save_character t1 c1).characters.length ∧
    ((db.save_character t1 c1).save_character t2 c2).files.length
      = (db.save_character t1 c1).files.length := by
  have hnodc : nodupKeys ((db.save_character t1 c1).save_character t2 c2).characters := by
    simp only [CharacterDatabase.save_character]
    exact nodupKeys_dinsert (nodupKeys_dinsert hwfc)
  have hnodf : nodupKeys ((db.save_character t1 c1).save_character t2 c2).files := by
    simp only [CharacterDatabase.save_character]
    exact nodupKeys_dinsert (nodupKeys_dinsert hwff)
  have hsomec : (dlookup c2.name
      ((db.save_character t1 c1).save_character t2 c2).characters).isSome = true := by
    simp [CharacterDatabase.save_character, dlookup_dinsert_self]
  have hsomef : (dlookup (filenameFor c2.name)
      ((db.save_character t1 c1).save_character t2 c2).files).isSome = true := by
    simp [CharacterDatabase.save_character, dlookup_dinsert_self]
  refine ⟨?_, ?_, countKey_eq_one hnodc hsomec, countKey_eq_one hnodf hsomef,
    ?_, ?_⟩
  · simp [CharacterDatabase.save_character, CharacterDatabase.get_character,
      dlookup_dinsert_self]
  · simp [CharacterDatabase.save_character, dlookup_dinsert_self]
  · have hmem : (dlookup c2.name (db.save_character t1 c1).characters).isSome
        = true := by
      simp [CharacterDatabase.save_character, ← hname, dlookup_dinsert_self]
    simpa only [CharacterDatabase.save_character] using
      length_dinsert_of_mem _ hmem
  · have hmem : (dlookup (filenameFor c2.name)
        (db.save_character t1 c1).files).isSome = true := by
      simp [CharacterDatabase.save_character, ← hname, dlookup_dinsert_self]
    simpa only [CharacterDatabase.save_character] using
      length_dinsert_of_mem _ hmem

/-- Witness for C7: two records named "Dup" saved in sequence into an empty
store. -/
theorem same_name_second_save_overwrites_witness :
    ((emptyDB.save_character 0
        (Character.init 0 "Dup" "Bard" 1 10 10 10 10 10 10)).save_character 1
        (Character.init 1 "Dup" "Monk" 2 11 10 10 10 10 10)).get_character
        (Character.init 1 "Dup" "Monk" 2 11 10 10 10 10 10).name
      = some { Character.init 1 "Dup" "Monk" 2 11 10 10 10 10 10 with
               modified_date := 1 } ∧
    countKey (Character.init 1 "Dup" "Monk" 2 11 10 10 10 10 10).name
      ((emptyDB.save_character 0
        (Character.init 0 "Dup" "Bard" 1 10 10 10 10 10 10)).save_character 1
        (Character.init 1 "Dup" "Monk" 2 11 10 10 10 10 10)).characters = 1 := by
  have h := same_name_second_save_overwrites emptyDB
    (Character.init 0 "Dup" "Bard" 1 10 10 10 10 10 10)
    (Character.init 1 "Dup" "Monk" 2 11 10 10 10 10 10) 0 1 rfl
    (by simp [nodupKeys, emptyDB]) (by simp [nodupKeys, emptyDB])
  exact ⟨h.1, h.2.2.1⟩

end CharacterDB
